import Mathlib

/-!
Verification of the ExpertConfUI configuration-adaptor core against its
specification.  The definitions below are a shallow embedding of the Python
sources:

* `expert_config_ui/daq_config/configuration/interfaces/tree_interface.py`
  (`ConfigTreeBranch`, `ConfigTree`, `TreePrinter`),
* `expert_config_ui/daq_config/configuration/implementations/oks/oks_class.py`
  (`OksClassWrapper`, `OksKernelClassHandler`),
* `expert_config_ui/daq_config/configuration/implementations/oks/oks_kernel.py`
  and `.../conffwk/conffwk_config.py` (`open_configuration`),
* `expert_config_ui/daq_config/data_structures/oks/oks_schema_tree.py`
  (`OksSchemaTree.generate_branches`).

Python objects are addressed by an allocation identity (`ObjId := Nat`);
`ConfigTreeBranch.__eq__` compares the `(name, id)` string pair, so every
list-membership test and `list.remove` in the source is modelled with that
key equality (`pyEq`), not with identity.  Exceptions are modelled
explicitly: `list.remove` on an absent element raises `ValueError`, and the
mutations performed before the raise persist, exactly as in CPython.
-/

/-- Allocation identity of a Python object (reference identity). -/
abbrev ObjId : Type := Nat

/-- The immutable part of `ConfigTreeBranch.__init__`: each allocated branch
object carries a `name` and an `id` string, set at construction and never
mutated by any of the link operations. -/
structure Naming where
  nm : ObjId → String
  bid : ObjId → String

/-- `ConfigTreeBranch.__eq__`: two branch objects compare equal iff their
`id` and `name` agree.  Python list membership and `list.remove` use this. -/
def pyEq (nm : Naming) (a b : ObjId) : Bool :=
  (nm.bid a == nm.bid b) && (nm.nm a == nm.nm b)

/-- The mutable link state of every branch object: `_children` and
`_parents` lists, both `[]` at construction. -/
structure Links where
  children : ObjId → List ObjId
  parents : ObjId → List ObjId

/-- Python `x in l` for branch lists (uses `__eq__`, i.e. `pyEq`). -/
def pyMem (nm : Naming) (l : List ObjId) (x : ObjId) : Bool :=
  l.any (fun y => pyEq nm y x)

/-- Python `l.remove(x)` for branch lists: drop the first element equal to
`x` under `pyEq`; `none` models the `ValueError` raised when no element
matches. -/
def pyRemove (nm : Naming) (x : ObjId) : List ObjId → Option (List ObjId)
  | [] => none
  | y :: ys => if pyEq nm y x then some ys else (pyRemove nm x ys).map (y :: ·)

/-- `self._children.append(c)` -/
def Links.pushChild (l : Links) (self c : ObjId) : Links :=
  { l with children := fun o => if o = self then l.children self ++ [c] else l.children o }

/-- `self._parents.append(p)` -/
def Links.pushParent (l : Links) (self p : ObjId) : Links :=
  { l with parents := fun o => if o = self then l.parents self ++ [p] else l.parents o }

/-- replace `self._children` wholesale (result of a `remove`) -/
def Links.setChildren (l : Links) (self : ObjId) (cs : List ObjId) : Links :=
  { l with children := fun o => if o = self then cs else l.children o }

/-- replace `self._parents` wholesale (result of a `remove`) -/
def Links.setParents (l : Links) (self : ObjId) (ps : List ObjId) : Links :=
  { l with parents := fun o => if o = self then ps else l.parents o }

/-- `ConfigTreeBranch._add_child(self, child)`: skip if a `pyEq`-equal child
is present, else append.  (The `isinstance` guard always passes in this
model, where every `ObjId` denotes a `ConfigTreeBranch`.) -/
def addChildInternal (nm : Naming) (l : Links) (self child : ObjId) : Links :=
  if pyMem nm (l.children self) child then l else l.pushChild self child

/-- `ConfigTreeBranch._add_parent(self, parent)`: skip if present, else
append to `_parents` and call `parent._add_child(self)`. -/
def addParentInternal (nm : Naming) (l : Links) (self parent : ObjId) : Links :=
  if pyMem nm (l.parents self) parent then l
  else addChildInternal nm (l.pushParent self parent) parent self

/-- `ConfigTreeBranch.add_child(self, child)`: skip if present, else append
to `_children` and call `child._add_parent(self)`. -/
def add_child (nm : Naming) (l : Links) (self child : ObjId) : Links :=
  if pyMem nm (l.children self) child then l
  else addParentInternal nm (l.pushChild self child) child self

/-- `ConfigTreeBranch.add_parent(self, parent)`: if `parent` is already in
`self._parents`, return; otherwise call `parent.add_child(self)` and then
unconditionally run `self._parents.append(parent)` — the source appends a
second time after `add_child` has already registered the back link. -/
def add_parent (nm : Naming) (l : Links) (self parent : ObjId) : Links :=
  if pyMem nm (l.parents self) parent then l
  else (add_child nm l parent self).pushParent self parent

/-- `ConfigTreeBranch._remove_child(self, child)`:
`self._children.remove(child)` — may raise `ValueError`.  The `Bool` result
is `true` when the call raised; the returned `Links` is the state at that
point (unchanged here, since the failed `remove` mutates nothing). -/
def removeChildInternal (nm : Naming) (l : Links) (self child : ObjId) : Links × Bool :=
  match pyRemove nm child (l.children self) with
  | none => (l, true)
  | some cs => (l.setChildren self cs, false)

/-- `ConfigTreeBranch._remove_parent(self, parent)`:
`self._parents.remove(parent)` then `parent._remove_child(self)`. -/
def removeParentInternal (nm : Naming) (l : Links) (self parent : ObjId) : Links × Bool :=
  match pyRemove nm parent (l.parents self) with
  | none => (l, true)
  | some ps => removeChildInternal nm (l.setParents self ps) parent self

/-- `ConfigTreeBranch.remove_child(self, child)`: after a debug log when the
child is absent, runs `self._children.remove(child)` (raising `ValueError`
when absent) and then `child._remove_parent(self)`. -/
def remove_child (nm : Naming) (l : Links) (self child : ObjId) : Links × Bool :=
  match pyRemove nm child (l.children self) with
  | none => (l, true)
  | some cs => removeParentInternal nm (l.setChildren self cs) child self

/-- `ConfigTreeBranch.remove_parent(self, parent)`: after a debug log when
absent, runs `self._parents.remove(parent)` and then
`parent.remove_child(self)`. -/
def remove_parent (nm : Naming) (l : Links) (self parent : ObjId) : Links × Bool :=
  match pyRemove nm parent (l.parents self) with
  | none => (l, true)
  | some ps => remove_child nm (l.setParents self ps) parent self

/-- A two-object heap for concrete runs: object `0` is branch `("B", "1")`,
object `1` is branch `("C", "2")`. -/
def nmBC : Naming :=
  { nm := fun o => if o = (0 : ObjId) then "B" else "C"
    bid := fun o => if o = (0 : ObjId) then "1" else "2" }

/-- Freshly constructed branches: both link lists empty. -/
def links0 : Links := { children := fun _ => [], parents := fun _ => [] }

/-- Warnings emitted through `warnings.warn`. -/
inductive PyWarning where
  | branchExists
deriving DecidableEq, Repr

/-- State of a `ConfigTree`: the shared branch-object heap (`links`), the
optional `_root_branch`, and the `_branches` registry list. -/
structure TreeState where
  links : Links
  root : Option ObjId
  branches : List ObjId

/-- `ConfigTree.get_branch_by_name_id(name, id)` truthiness as used inside
`add_branch`: the predicate scan over `_branches` finds a `pyEq`-equal
branch.  (The returned branch object is always truthy in Python.) -/
def hasBranchNameId (nm : Naming) (st : TreeState) (b : ObjId) : Bool :=
  st.branches.any (fun x => pyEq nm x b)

/-- `ConfigTree.add_branch(parent, branch)`.  With `parent = None`: warn
`BranchExistsWarning` when a root exists, install `branch` as root and clear
`_branches`.  With a parent: `branch.add_parent(parent)`.  Then, unless
`get_branch_by_name_id(branch.name, branch.id)` finds a registered branch,
append `branch` to `_branches`.  Returns the new state and the warnings
emitted by this call. -/
def add_branch (nm : Naming) (st : TreeState) (parent : Option ObjId) (branch : ObjId) :
    TreeState × List PyWarning :=
  let (st1, ws) :=
    match parent with
    | none =>
        (({ st with root := some branch, branches := [] } : TreeState),
         if st.root.isSome then [PyWarning.branchExists] else [])
    | some p => ({ st with links := add_parent nm st.links branch p }, [])
  if hasBranchNameId nm st1 branch then (st1, ws)
  else ({ st1 with branches := st1.branches ++ [branch] }, ws)

/-- `ConfigTree.remove_branch(branch)`: after a debug log when absent, runs
`self._branches.remove(branch)`; the `Bool` is `true` when that raised
`ValueError` (state unchanged in that case). -/
def remove_branch (nm : Naming) (st : TreeState) (branch : ObjId) : TreeState × Bool :=
  match pyRemove nm branch st.branches with
  | none => (st, true)
  | some l => ({ st with branches := l }, false)

/-- `ConfigTree.get_all_branches()` (returns a copy of `_branches`). -/
def get_all_branches (st : TreeState) : List ObjId :=
  st.branches

/-- The nested mapping produced by `TreePrinter.branch_to_dict`: keys
`name`, `id`, `stored_data`, `children` (recursive), `parents` (list of
parent ids).  Stored data is opaque (`α`). -/
inductive BDict (α : Type) where
  | node (name : String) (id : String) (storedData : α)
      (children : List (BDict α)) (parents : List String)

/-- `children` entry of a branch mapping. -/
def BDict.childrenOf {α : Type} : BDict α → List (BDict α)
  | .node _ _ _ cs _ => cs

/-- `parents` entry of a branch mapping. -/
def BDict.parentsOf {α : Type} : BDict α → List String
  | .node _ _ _ _ ps => ps

/-- A list comprehension `[f(b) for b in xs]` over a fallible per-branch
translator `f`: succeeds iff every element translates. -/
def branchListToDict {α : Type} (f : ObjId → Option (BDict α)) :
    List ObjId → Option (List (BDict α))
  | [] => some []
  | b :: bs =>
      match f b, branchListToDict f bs with
      | some d, some ds => some (d :: ds)
      | _, _ => none

/-- `TreePrinter.branch_to_dict(branch)`: build the nested mapping, the
children entry via `[branch_to_dict(c) for c in branch.get_children()]`.
The Python recursion has no guard, so it is modelled with explicit fuel
(`none` = the recursion exceeds the given depth; on an acyclic tree some
fuel always suffices, matching Python termination). -/
def branch_to_dict {α : Type} (nm : Naming) (sd : ObjId → α) (l : Links) :
    Nat → ObjId → Option (BDict α)
  | 0, _ => none
  | fuel + 1, b =>
      match branchListToDict (branch_to_dict nm sd l fuel) (l.children b) with
      | none => none
      | some cs =>
          some (.node (nm.nm b) (nm.bid b) (sd b) cs ((l.parents b).map nm.bid))

/-- Result of `TreePrinter.tree_to_dict()`: the empty mapping when the tree
has no root, else the mapping with keys `root` and `branches`. -/
inductive TreeDict (α : Type) where
  | empty
  | full (root : BDict α) (branches : List (BDict α))

/-- `TreePrinter.tree_to_dict()`: `{}` when `get_root()` is `None`, else
`{"root": branch_to_dict(root), "branches": [branch_to_dict(b) for b in
get_all_branches()]}`, with the same fuel convention as above. -/
def tree_to_dict {α : Type} (nm : Naming) (sd : ObjId → α) (fuel : Nat) (st : TreeState) :
    Option (TreeDict α) :=
  match st.root with
  | none => some .empty
  | some r =>
      match branch_to_dict nm sd st.links fuel r,
            branchListToDict (branch_to_dict nm sd st.links fuel) (get_all_branches st) with
      | some rd, some bs => some (.full rd bs)
      | _, _ => none

/-- Python exceptions raised by the embedded handler code. -/
inductive PyErr where
  | valueError
  | typeError
  | attributeError
deriving DecidableEq, Repr

/-- Definition of one native `oks.OksClass` as far as the handler touches
it: description, abstractness flag, and the name lists of its attributes,
methods, relationships and direct superclasses. -/
structure OksClassData where
  description : String
  isAbstract : Bool
  attributes : List String
  methods : List String
  relationships : List String
  superclasses : List String
deriving DecidableEq, Repr

/-- The open schema configuration held by the `OksKernel` (black-box
collaborator): the registered classes, keyed by class name. -/
structure OksConfigState where
  classes : List (String × OksClassData)
deriving DecidableEq, Repr

/-- Native `kernel.find_class(name)`: the class definition, or `None`. -/
def findClass (cfg : OksConfigState) (n : String) : Option OksClassData :=
  (cfg.classes.find? (fun p => p.1 == n)).map (fun p => p.2)

/-- Native `kernel.classes()`: modelled as yielding the names of the
registered classes (the reading most favourable to the spec; under any
other reading `get_all_obj(None)` fails even earlier, inside
`find_class`). -/
def classNames (cfg : OksConfigState) : List String :=
  cfg.classes.map (fun p => p.1)

/-- A dynamically typed Python value flowing through the handler: either a
native `oks.OksClass` reference or an `OksClassWrapper` instance (each
identified by the class name it refers to). -/
inductive PyVal where
  | oksClass (name : String)
  | wrapper (name : String)
deriving DecidableEq, Repr

/-- `OksClassWrapper.__init__(oks_instance)`: raises `TypeError` unless the
argument is an `oks.OksClass` (in particular, wrapping an existing
`OksClassWrapper` raises). -/
def mkOksClassWrapper : PyVal → Except PyErr PyVal
  | .oksClass n => .ok (.wrapper n)
  | .wrapper _ => .error .typeError

/-- `OksKernelClassHandler.get_obj(object_class)`: `find_class`, then raise
`ValueError` on `None` (after an error log), else wrap. -/
def get_obj (cfg : OksConfigState) (object_class : String) : Except PyErr PyVal :=
  match findClass cfg object_class with
  | none => .error .valueError
  | some _ => mkOksClassWrapper (.oksClass object_class)

/-- `OksKernelClassHandler.get_all_obj(object_class)`.  With no filter the
source evaluates `OksClassWrapper(self.get_obj(c))` per class — wrapping
the wrapper returned by `get_obj`.  A `str` filter is first boxed into a
one-element list; a list filter is mapped through `get_obj` directly (no
duplicate removal in the source). -/
def get_all_obj (cfg : OksConfigState) (object_class : Option (List String)) :
    Except PyErr (List PyVal) :=
  match object_class with
  | none =>
      (classNames cfg).mapM (fun c => do
        let w ← get_obj cfg c
        mkOksClassWrapper w)
  | some cs => cs.mapM (get_obj cfg)

/-- The attribute names defined on `OksClassWrapper` instances (from the
class body: `__init__` fields, properties, `set_attr`, `get_attr`,
`name`); the `IObjectModifier`, `Protocol` and `Generic` bases contribute
no further plain methods.  In particular there is no `get_description`,
`get_is_abstract`, `get_attributes`, `get_methods`, `get_relationships`
or `get_superclasses`. -/
def oksClassWrapperAttrs : List String :=
  ["_instance", "_property_handlers", "attributes", "methods",
   "relationships", "instance", "set_attr", "get_attr", "name"]

/-- Python attribute lookup on an `OksClassWrapper`: `AttributeError` for
any name outside the class's attribute set. -/
def wrapperLookup (attr : String) : Except PyErr String :=
  if attr ∈ oksClassWrapperAttrs then .ok attr else .error .attributeError

/-- The class copy that `__copy_class` evidently intends (per its use in
`add`/`rename` and per the spec): register `name` with the original's
description, abstractness, attributes, methods, relationships and
superclasses.  Reached only if every method lookup in `__copy_class`
succeeded. -/
def copyClassIntended (cfg : OksConfigState) (obj : PyVal) (name : String) :
    Except PyErr OksConfigState :=
  match obj with
  | .wrapper n =>
      match findClass cfg n with
      | some d => .ok ⟨cfg.classes ++ [(name, d)]⟩
      | none => .error .valueError
  | .oksClass _ => .error .typeError

/-- `OksKernelClassHandler.__copy_class(obj, name)`: the first evaluated
expression is `obj.get_description()`, an attribute lookup on the
`OksClassWrapper` `obj`; the class defines no such attribute
(`oksClassWrapperAttrs`), so the call raises `AttributeError` before the
new `oks.OksClass` is constructed.  The success continuation (statically
unreachable, since `wrapperLookup "get_description"` is a closed failing
term) is filled with the evident intent, `copyClassIntended`. -/
def copyClass (cfg : OksConfigState) (obj : PyVal) (name : String) :
    Except PyErr OksConfigState := do
  let _ ← wrapperLookup "get_description"
  let _ ← wrapperLookup "get_is_abstract"
  let _ ← wrapperLookup "get_attributes"
  let _ ← wrapperLookup "get_methods"
  let _ ← wrapperLookup "get_relationships"
  let _ ← wrapperLookup "get_superclasses"
  copyClassIntended cfg obj name

/-- `OksKernelClassHandler.delete(obj)`: `oks.OksClass.destroy(obj.instance)` —
the native kernel drops the class registration. -/
def delete (cfg : OksConfigState) (obj : PyVal) : OksConfigState :=
  match obj with
  | .wrapper n => ⟨cfg.classes.filter (fun p => !(p.1 == n))⟩
  | .oksClass n => ⟨cfg.classes.filter (fun p => !(p.1 == n))⟩

/-- `OksKernelClassHandler.rename(obj, new_name)`:
`self.__copy_class(obj, new_name)` then `self.delete(obj)`. -/
def rename (cfg : OksConfigState) (obj : PyVal) (new_name : String) :
    Except PyErr OksConfigState := do
  let cfg1 ← copyClass cfg obj new_name
  pure (delete cfg1 obj)

/-- State owned by `OksKernelConfiguration`: the native kernel's loaded
schemas plus the `IConfiguration._configuration_name` slot (which
`open_configuration` never writes in this implementation). -/
structure OksKernelSession where
  loadedSchemas : List String
  recordedName : Option String
deriving DecidableEq, Repr

/-- `OksKernelConfiguration.open_configuration(config_name)`: when the name
does not end with `"schema.xml"` (`ConfigType.SCHEMA.name.lower()` + the
`".xml"` extension) it calls `logging.exception(...)` — which only logs,
it raises nothing — and in every case proceeds to
`self._configuration.load_schema(config_name)`.  The `Bool` result records
whether the violation was logged.  No name is recorded. -/
def open_configuration (st : OksKernelSession) (config_name : String) :
    OksKernelSession × Bool :=
  let violation := !(config_name.endsWith "schema.xml")
  ({ st with loadedSchemas := st.loadedSchemas ++ [config_name] }, violation)

/-- State owned by `ConffwkConfiguration`: the `configuration_name`
attribute and the native `conffwk.Configuration` connection string. -/
structure ConffwkSession where
  configurationName : Option String
  connection : Option String
deriving DecidableEq, Repr

/-- `ConffwkConfiguration.open_configuration(configuration_name)`: logs the
suffix violation (`"data.xml"` expected) without raising, then records
`self.configuration_name = configuration_name` and opens
`conffwk.Configuration("oksconflibs:" + configuration_name)`. -/
def conffwk_open_configuration (st : ConffwkSession) (configuration_name : String) :
    ConffwkSession × Bool :=
  let violation := !(configuration_name.endsWith "data.xml")
  let _ := st
  ({ configurationName := some configuration_name,
     connection := some ("oksconflibs:" ++ configuration_name) }, violation)

/-- State threaded through `OksSchemaTree.generate_branches`: the branch
heap naming, each branch's stored class (`stored_data` holds the wrapped
class; only its name matters to the walk), the `ConfigTree` state, and the
allocation counter for fresh branch objects. -/
structure GenState where
  naming : Naming
  stored : ObjId → String
  tree : TreeState
  next : ObjId

/-- `ConfigTreeBranch(name, id, stored_data)` inside `generate_branches`:
allocate a fresh branch object whose `name` and `id` are both the wrapped
class's name and whose link lists start empty. -/
def newBranch (g : GenState) (name id cls : String) : ObjId × GenState :=
  (g.next,
   { naming :=
       { nm := fun o => if o = g.next then name else g.naming.nm o
         bid := fun o => if o = g.next then id else g.naming.bid o }
     stored := fun o => if o = g.next then cls else g.stored o
     tree :=
       { g.tree with
         links :=
           { children := fun o => if o = g.next then [] else g.tree.links.children o
             parents := fun o => if o = g.next then [] else g.tree.links.parents o } }
     next := g.next + 1 })

/-- One iteration of the `for rel in ...` loop of `generate_branches`
short of the recursive call: allocate the child branch for superclass `s`
(`ConfigTreeBranch(str(name), name, wrapped_obj)` — name and id are both
the class name) and `add_branch` it under `parent_branch`.  The allocated
branch is `g.next`. -/
def genStep (g : GenState) (parent_branch : ObjId) (s : String) : GenState :=
  let (b, g1) := newBranch g s s s
  { g1 with tree := (add_branch g1.naming g1.tree (some parent_branch) b).1 }

mutual

/-- `OksSchemaTree.generate_branches(parent_branch)`: iterate over
`parent_branch.stored_data.get_attr('all_super_classes')()` — the direct
superclasses of the stored class (`supers`) — and for each one wrap it,
allocate a child branch, `add_branch` it under `parent_branch`, and
recurse.  The Python recursion has no guard; fuel bounds the recursion
depth (`none` = depth exceeded; Python terminates iff some fuel
suffices). -/
def generate_branches (supers : String → List String) :
    Nat → GenState → ObjId → Option GenState
  | 0, _, _ => none
  | fuel + 1, g, parent_branch =>
      generateSupersList supers fuel g parent_branch (supers (g.stored parent_branch))
termination_by fuel _g _pb => (fuel, 0)

/-- The `for rel in ...` loop body of `generate_branches`. -/
def generateSupersList (supers : String → List String) :
    Nat → GenState → ObjId → List String → Option GenState
  | _, g, _, [] => some g
  | fuel, g, parent_branch, s :: rest =>
      match generate_branches supers fuel (genStep g parent_branch s) g.next with
      | none => none
      | some g3 => generateSupersList supers fuel g3 parent_branch rest
termination_by fuel _g _pb l => (fuel, l.length + 1)

end

/-- The freshly allocated branch of a `genStep` stores the superclass it
was created for. -/
theorem genStep_stored (g : GenState) (pb : ObjId) (s : String) :
    (genStep g pb s).stored g.next = s := by
  simp [genStep, newBranch]

/-- Failed `list.remove`: if no element of `l` is `pyEq`-equal to `x`, then
`pyRemove` raises (`none`). -/
theorem pyRemove_eq_none_of_not_pyMem (nm : Naming) (x : ObjId) :
    ∀ l : List ObjId, pyMem nm l x = false → pyRemove nm x l = none := by
  intro l
  induction l with
  | nil => intro _; rfl
  | cons y ys ih =>
      intro h
      simp only [pyMem, List.any_cons, Bool.or_eq_false_iff] at h
      simp only [pyRemove, h.1, if_false]
      rw [ih h.2]
      rfl

/-- Run for claim C1: two freshly constructed branches, object `0` named
`("B", "1")` and object `1` named `("C", "2")`; first `C.add_parent(B)`. -/
def c1Links : Links := add_parent nmBC links0 1 0

/-- ... then `B.remove_child(C)` (the `Bool` is whether it raised). -/
def c1Removed : Links × Bool := remove_child nmBC c1Links 0 1

/-- **C1** (divergence): the paired-linkage invariant claimed for
`ConfigTreeBranch` fails on the code.  On two fresh branches `B` and `C`,
`C.add_parent(B)` leaves `B` *twice* in `C._parents` (the source appends
once inside `_add_parent` via `parent.add_child(self)` and once more
unconditionally afterwards), violating "each appears at most once"; the
subsequent `B.remove_child(C)` raises `ValueError` (its tail calls
`child._remove_parent(self)` → `parent._remove_child(self)`, a second
removal of an already-removed entry) and leaves `B ∈ C._parents` while
`C ∉ B._children` — a dangling one-directional edge. -/
theorem C1_pairing_divergence :
    (c1Links.parents 1).countP (fun o => pyEq nmBC o 0) = 2 ∧
    c1Links.children 0 = [1] ∧
    c1Removed.2 = true ∧
    c1Removed.1.parents 1 = [0] ∧
    c1Removed.1.children 0 = [] := by
  refine ⟨by decide, by decide, by decide, by decide, by decide⟩

/-- Heap for claim C2/C3 runs: `0 = ("R","r")` (root), `1 = ("P","p")`,
`2 = ("A","a")`, `3 = ("A","a")` (a second, distinct object with the same
`(name, id)` key as `2`). -/
def nmC2 : Naming :=
  { nm := fun o => if o = (0 : ObjId) then "R" else if o = 1 then "P" else "A"
    bid := fun o => if o = (0 : ObjId) then "r" else if o = 1 then "p" else "a" }

/-- `ConfigTree.__init__` with root branch `0`. -/
def st0 : TreeState := { links := links0, root := some 0, branches := [0] }

/-- after `add_branch(root, P)` -/
def st1 : TreeState := (add_branch nmC2 st0 (some 0) 1).1

/-- after `add_branch(root, A)` — a populated tree registering `[R, P, A]`. -/
def st2 : TreeState := (add_branch nmC2 st1 (some 0) 2).1

/-- **C2** (counterexample): inserting a branch whose `(name, id)` equals
the registered branch `A` (`("A","a")`) under parent `P` emits *no*
warning — the duplicate path of `ConfigTree.add_branch` returns silently —
and the edge set does not stay unchanged: `P._children` gains the
duplicate object (link wiring runs before the duplicate check).  This
refutes the claim as stated ("... leaves the tree's parent/child edge set
unchanged, and emits a warning"). -/
theorem C2_counterexample :
    (add_branch nmC2 st2 (some 1) 3).2 = [] ∧
    st2.links.children 1 = [] ∧
    (add_branch nmC2 st2 (some 1) 3).1.links.children 1 = [3] := by
  refine ⟨by decide, by decide, by decide⟩

/-- **C2** (amended): calling `add_branch` under a given parent with a
branch whose `(name, id)` pair is already registered exactly once leaves
`all_branches` unchanged — still exactly one branch with that pair — and
emits no warning (the duplicate is suppressed silently; the claimed
warning does not exist in this path, and the parent/child link wiring
that precedes the duplicate check may still mutate link lists). -/
theorem C2_duplicate_insertion_amended (nm : Naming) (st : TreeState)
    (p branch : ObjId)
    (h : st.branches.countP (fun x => pyEq nm x branch) = 1) :
    (add_branch nm st (some p) branch).1.branches = st.branches ∧
    (add_branch nm st (some p) branch).1.branches.countP (fun x => pyEq nm x branch) = 1 ∧
    (add_branch nm st (some p) branch).2 = [] := by
  have hmem : hasBranchNameId nm { st with links := add_parent nm st.links branch p } branch = true := by
    simp only [hasBranchNameId, List.any_eq_true]
    have hpos : 0 < st.branches.countP (fun x => pyEq nm x branch) := by omega
    obtain ⟨a, ha, hpa⟩ := List.countP_pos_iff.mp hpos
    exact ⟨a, ha, hpa⟩
  simp only [add_branch, hmem, if_true]
  exact ⟨trivial, h, trivial⟩

/-- **C2** (witness): the amended statement at the concrete duplicate
insertion of `C2_counterexample`. -/
theorem C2_duplicate_insertion_amended_witness :
    (add_branch nmC2 st2 (some 1) 3).1.branches = st2.branches ∧
    (add_branch nmC2 st2 (some 1) 3).1.branches.countP (fun x => pyEq nmC2 x 3) = 1 ∧
    (add_branch nmC2 st2 (some 1) 3).2 = [] :=
  C2_duplicate_insertion_amended nmC2 st2 1 3 (by decide)

/-- **C3** (confirmed): on a tree that already has a root, `add_branch(None,
newRoot)` emits the replacing-root `BranchExistsWarning`, discards every
registered branch, and leaves `all_branches = [newRoot]` with `newRoot` as
the root. -/
theorem C3_root_reset (nm : Naming) (st : TreeState) (b : ObjId)
    (h : st.root.isSome = true) :
    add_branch nm st none b =
      ({ links := st.links, root := some b, branches := [b] }, [PyWarning.branchExists]) := by
  simp [add_branch, hasBranchNameId, h]

/-- **C3** (witness): resetting the populated three-branch tree `st2` with
new root `3` discards `[R, P, A]` and seeds `[3]`, with the warning. -/
theorem C3_root_reset_witness :
    add_branch nmC2 st2 none 3 =
      ({ links := st2.links, root := some 3, branches := [3] }, [PyWarning.branchExists]) :=
  C3_root_reset nmC2 st2 3 (by decide)

/-- The mapping list produced for a branch list has one entry per branch. -/
theorem branchListToDict_length {α : Type} (f : ObjId → Option (BDict α)) :
    ∀ (xs : List ObjId) (ds : List (BDict α)),
      branchListToDict f xs = some ds → ds.length = xs.length := by
  intro xs
  induction xs with
  | nil =>
      intro ds h
      simp only [branchListToDict] at h
      cases h
      rfl
  | cons b bs ih =>
      intro ds h
      rcases hb : f b with _ | d0
      · rw [branchListToDict, hb] at h
        cases h
      · rcases htl : branchListToDict f bs with _ | ds0
        · rw [branchListToDict, hb, htl] at h
          cases h
        · rw [branchListToDict, hb, htl] at h
          cases h
          simp [ih ds0 htl]

/-- A successful `branch_to_dict` records exactly the branch's live child
and parent adjacency sizes in its `children` and `parents` entries. -/
theorem branch_to_dict_counts {α : Type} (nm : Naming) (sd : ObjId → α) (l : Links)
    (fuel : Nat) (b : ObjId) (d : BDict α)
    (h : branch_to_dict nm sd l fuel b = some d) :
    d.childrenOf.length = (l.children b).length ∧
    d.parentsOf.length = (l.parents b).length := by
  cases fuel with
  | zero => rw [branch_to_dict] at h; cases h
  | succ k =>
      rcases hcs : branchListToDict (branch_to_dict nm sd l k) (l.children b) with _ | cs
      · rw [branch_to_dict, hcs] at h
        cases h
      · rw [branch_to_dict, hcs] at h
        cases h
        constructor
        · exact branchListToDict_length (branch_to_dict nm sd l k) (l.children b) cs hcs
        · simp [BDict.parentsOf]

/-- Entry count and summed child/parent adjacency sizes agree between a
branch list and its successful mapping export. -/
theorem branchListToDict_counts {α : Type} (l : Links) (f : ObjId → Option (BDict α))
    (hf : ∀ (b : ObjId) (d : BDict α), f b = some d →
      d.childrenOf.length = (l.children b).length ∧
      d.parentsOf.length = (l.parents b).length) :
    ∀ (xs : List ObjId) (ds : List (BDict α)),
      branchListToDict f xs = some ds →
      ds.length = xs.length ∧
      (ds.map (fun d => d.childrenOf.length)).sum
        = (xs.map (fun b => (l.children b).length)).sum ∧
      (ds.map (fun d => d.parentsOf.length)).sum
        = (xs.map (fun b => (l.parents b).length)).sum := by
  intro xs
  induction xs with
  | nil =>
      intro ds h
      simp only [branchListToDict] at h
      cases h
      exact ⟨rfl, rfl, rfl⟩
  | cons b bs ih =>
      intro ds h
      rcases hb : f b with _ | d0
      · rw [branchListToDict, hb] at h
        cases h
      · rcases htl : branchListToDict f bs with _ | ds0
        · rw [branchListToDict, hb, htl] at h
          cases h
        · rw [branchListToDict, hb, htl] at h
          cases h
          obtain ⟨hc, hp⟩ := hf b d0 hb
          obtain ⟨hl, hcs, hps⟩ := ih ds0 htl
          refine ⟨by simp [hl], ?_, ?_⟩
          · simp only [List.map_cons, List.sum_cons, hc, hcs]
          · simp only [List.map_cons, List.sum_cons, hp, hps]

/-- **C4** (confirmed): when a populated tree exports successfully to the
nested-mapping form, the export's `branches` list has exactly
`get_all_branches()` many entries, and the total child-edge count and
total parent-edge count recoverable from those entries equal the live
tree's totals. -/
theorem C4_roundtrip_export {α : Type} (nm : Naming) (sd : ObjId → α) (fuel : Nat)
    (st : TreeState) (rd : BDict α) (bs : List (BDict α))
    (h : tree_to_dict nm sd fuel st = some (.full rd bs)) :
    bs.length = (get_all_branches st).length ∧
    (bs.map (fun d => d.childrenOf.length)).sum
      = ((get_all_branches st).map (fun b => (st.links.children b).length)).sum ∧
    (bs.map (fun d => d.parentsOf.length)).sum
      = ((get_all_branches st).map (fun b => (st.links.parents b).length)).sum := by
  unfold tree_to_dict at h
  split at h
  · exact absurd h (by simp)
  · split at h
    · rename_i rd0 bs0 hrd hbs
      obtain ⟨h1, h2⟩ := TreeDict.full.inj (Option.some.inj h)
      subst h1
      subst h2
      exact branchListToDict_counts st.links (branch_to_dict nm sd st.links fuel)
        (fun b d hd => branch_to_dict_counts nm sd st.links fuel b d hd)
        (get_all_branches st) bs0 hbs
    · exact absurd h (by simp)

/-- Heap for the C4 witness: `0 = ("R","r")` (root), `1 = ("A","a")`. -/
def nmW : Naming :=
  { nm := fun o => if o = (0 : ObjId) then "R" else "A"
    bid := fun o => if o = (0 : ObjId) then "r" else "a" }

/-- Opaque stored payloads for the C4 witness. -/
def sdW : ObjId → Unit := fun _ => ()

/-- A populated two-branch tree: root `R`, then `add_branch(R, A)`. -/
def stW : TreeState :=
  (add_branch nmW { links := links0, root := some 0, branches := [0] } (some 0) 1).1

/-- The mapping `branch_to_dict` produces for the root of `stW` (note the
two parent entries on `A`: `add_parent` registers the back link twice). -/
def rdW : BDict Unit := .node "R" "r" () [.node "A" "a" () [] ["r", "r"]] []

/-- The `branches` entry `tree_to_dict` produces for `stW`. -/
def bsW : List (BDict Unit) := [rdW, .node "A" "a" () [] ["r", "r"]]

/-- **C4** (witness): the round-trip count equalities at the concrete
populated tree `stW` and its concrete export. -/
theorem C4_roundtrip_export_witness :
    bsW.length = (get_all_branches stW).length ∧
    (bsW.map (fun d => d.childrenOf.length)).sum
      = ((get_all_branches stW).map (fun b => (stW.links.children b).length)).sum ∧
    (bsW.map (fun d => d.parentsOf.length)).sum
      = ((get_all_branches stW).map (fun b => (stW.links.parents b).length)).sum :=
  C4_roundtrip_export nmW sdW 2 stW rdW bsW rfl

/-- Concrete open schema configuration holding one class `"A"`. -/
def cfgA : OksConfigState := ⟨[("A", ⟨"", false, [], [], [], []⟩)]⟩

/-- **C5** (divergence): on a configuration with one class `"A"`,
`get_all_obj(None)` does not return one wrapped object per class — it
raises `TypeError`, because the comprehension wraps the already-wrapped
result of `get_obj` in `OksClassWrapper` again; and the list filter
`["A", "A"]` is mapped through `get_obj` with no duplicate removal, so
both duplicates are returned. -/
theorem C5_get_all_obj_divergence :
    get_all_obj cfgA none = .error .typeError ∧
    get_all_obj cfgA (some ["A", "A"]) = .ok [.wrapper "A", .wrapper "A"] := by
  constructor
  · rfl
  · rfl

/-- **C6** (confirmed): `get_obj` on a class name absent from the open
configuration raises (`ValueError`, the ObjectNotFound-kind error of this
layer) and never returns null silently; on a present class name it returns
the wrapped class. -/
theorem C6_get_obj_lookup (cfg : OksConfigState) (n : String) :
    (findClass cfg n = none → get_obj cfg n = .error .valueError) ∧
    (∀ d : OksClassData, findClass cfg n = some d → get_obj cfg n = .ok (.wrapper n)) := by
  constructor
  · intro h
    simp [get_obj, h]
  · intro d h
    simp [get_obj, h, mkOksClassWrapper]

/-- **C6** (witness): lookup of the absent `"B"` errors, lookup of the
present `"A"` returns its wrapper, on the concrete configuration `cfgA`. -/
theorem C6_get_obj_lookup_witness :
    get_obj cfgA "B" = .error .valueError ∧ get_obj cfgA "A" = .ok (.wrapper "A") :=
  ⟨(C6_get_obj_lookup cfgA "B").1 rfl,
   (C6_get_obj_lookup cfgA "A").2 ⟨"", false, [], [], [], []⟩ rfl⟩

/-- **C7** (divergence): `rename` is not clone-then-delete on any input —
its first step `__copy_class` evaluates `obj.get_description()`, an
attribute absent from `OksClassWrapper`, so every call raises
`AttributeError` before any class is created or deleted; no class under
`new_name` ever appears and the original is never removed. -/
theorem C7_rename_divergence (cfg : OksConfigState) (obj : PyVal) (new_name : String) :
    rename cfg obj new_name = .error .attributeError := by
  rfl

/-- A fresh `OksKernelConfiguration` session: nothing loaded, no name. -/
def oksSession0 : OksKernelSession := ⟨[], none⟩

/-- **C8** (counterexample): opening the nonconforming name `"foo"` on the
oks schema session logs the violation and still loads the schema — but the
session's recorded configuration name stays `none`: the oks
`open_configuration` never records the name, contradicting the claim's
"...still proceeds to establish the backend connection and record the
name". -/
theorem C8_counterexample :
    (open_configuration oksSession0 "foo").2 = true ∧
    (open_configuration oksSession0 "foo").1.loadedSchemas = ["foo"] ∧
    (open_configuration oksSession0 "foo").1.recordedName = none := by
  refine ⟨?_, ?_, ?_⟩
  · simp only [open_configuration, oksSession0]
    decide
  · simp [open_configuration, oksSession0]
  · simp [open_configuration, oksSession0]

/-- **C8** (amended): for every configuration name, `open_configuration`
logs a violation exactly when the name lacks the `<kind-lowercase>.xml`
suffix and always proceeds to establish the backend connection without
raising; the conffwk implementation records the name, while the oks
implementation leaves the recorded configuration name untouched. -/
theorem C8_open_soft_validation_amended (name : String)
    (st1 : OksKernelSession) (st2 : ConffwkSession) :
    ((open_configuration st1 name).2 = !(name.endsWith "schema.xml") ∧
     (open_configuration st1 name).1.loadedSchemas = st1.loadedSchemas ++ [name] ∧
     (open_configuration st1 name).1.recordedName = st1.recordedName) ∧
    ((conffwk_open_configuration st2 name).2 = !(name.endsWith "data.xml") ∧
     (conffwk_open_configuration st2 name).1.configurationName = some name ∧
     (conffwk_open_configuration st2 name).1.connection
       = some ("oksconflibs:" ++ name)) := by
  refine ⟨⟨?_, ?_, ?_⟩, ⟨?_, ?_, ?_⟩⟩ <;>
    simp [open_configuration, conffwk_open_configuration]

/-- Inner loop of the termination argument: if every recursive
`generate_branches` call at this fuel succeeds on branches whose stored
class has rank below the fuel, then the superclass loop succeeds on any
list of classes of rank below the fuel. -/
theorem generateSupersList_isSome (supers : String → List String) (rank : String → Nat)
    (fuel : Nat)
    (ih : ∀ (g : GenState) (pb : ObjId), rank (g.stored pb) < fuel →
      (generate_branches supers fuel g pb).isSome = true) :
    ∀ (l : List String) (g : GenState) (pb : ObjId),
      (∀ s ∈ l, rank s < fuel) →
      (generateSupersList supers fuel g pb l).isSome = true := by
  intro l
  induction l with
  | nil =>
      intro g pb _
      rw [generateSupersList]
      rfl
  | cons s rest ihl =>
      intro g pb hl
      have hs : rank s < fuel := hl s (List.mem_cons_self s rest)
      have hst : rank ((genStep g pb s).stored g.next) < fuel := by
        rw [genStep_stored]
        exact hs
      obtain ⟨g3, hg3⟩ := Option.isSome_iff_exists.mp (ih (genStep g pb s) g.next hst)
      rw [generateSupersList, hg3]
      exact ihl g3 pb (fun t ht => hl t (List.mem_cons_of_mem s ht))

/-- **C9** (confirmed): when the superclass relation is acyclic — witnessed
by a rank function that strictly decreases from a class to each of its
superclasses, which for a finite schema exists exactly when no class is
its own transitive superclass — the recursive `generate_branches` walk
terminates: any fuel exceeding the rank of the seed branch's class
suffices, so tree construction completes. -/
theorem C9_generate_branches_terminates (supers : String → List String)
    (rank : String → Nat)
    (hr : ∀ (c s : String), s ∈ supers c → rank s < rank c)
    (fuel : Nat) (g : GenState) (pb : ObjId)
    (hfuel : rank (g.stored pb) < fuel) :
    (generate_branches supers fuel g pb).isSome = true := by
  induction fuel generalizing g pb with
  | zero => omega
  | succ k ihk =>
      rw [generate_branches]
      apply generateSupersList_isSome supers rank k ihk
      intro s hs
      have h1 := hr (g.stored pb) s hs
      omega

/-- Superclass relation for the C9 witness: `A` has the single superclass
`B`; every other class has none. -/
def supersW : String → List String := fun c => if c = "A" then ["B"] else []

/-- Rank function witnessing acyclicity of `supersW`. -/
def rankW : String → Nat := fun c => if c = "A" then 1 else 0

/-- `supersW` strictly decreases `rankW`. -/
theorem supersW_rank : ∀ (c s : String), s ∈ supersW c → rankW s < rankW c := by
  intro c s hs
  by_cases h : c = "A"
  · subst h
    simp only [supersW, if_pos, List.mem_singleton] at hs
    subst hs
    decide
  · simp [supersW, h] at hs

/-- Initial generation state for the C9 witness: the root branch `0` is
`("A", "root")` storing class `"A"` (as `OksSchemaTree.__init__` seeds
it), with only the root registered. -/
def genStateW : GenState :=
  { naming :=
      { nm := fun _ => "A"
        bid := fun o => if o = (0 : ObjId) then "root" else "A" }
    stored := fun _ => "A"
    tree := { links := links0, root := some 0, branches := [0] }
    next := 1 }

/-- **C9** (witness): the termination bound holds concretely — on the
acyclic one-edge schema `supersW`, generation from the seed completes
within fuel 2. -/
theorem C9_generate_branches_terminates_witness :
    (generate_branches supersW 2 genStateW 0).isSome = true :=
  C9_generate_branches_terminates supersW rankW supersW_rank 2 genStateW 0 (by decide)

/-- **C10** (confirmed): `remove_branch` on a branch not registered in
`_branches` raises `ValueError` (`list.remove` of an absent element, after
only a debug log) and leaves the tree state unchanged — absent branches
are not tolerated despite the soft-sounding log message. -/
theorem C10_remove_branch_absent (nm : Naming) (st : TreeState) (b : ObjId)
    (h : pyMem nm st.branches b = false) :
    remove_branch nm st b = (st, true) := by
  unfold remove_branch
  rw [pyRemove_eq_none_of_not_pyMem nm b st.branches h]

/-- **C10** (witness): removing the unregistered branch `1` from a
single-branch tree raises and changes nothing. -/
theorem C10_remove_branch_absent_witness :
    remove_branch nmBC { links := links0, root := some 0, branches := [0] } 1
      = ({ links := links0, root := some 0, branches := [0] }, true) :=
  C10_remove_branch_absent nmBC { links := links0, root := some 0, branches := [0] } 1
    (by decide)
